import Mathlib

/-!
Shallow embedding of the employee face registration and tracking program
(`face_detection.py`, `data.py`) and proofs about it.

Modelling conventions:
* Machine integers and bytes are `Nat`; a 32-bit float is represented by its
  bit pattern, a `Nat` below `2 ^ 32` (the store serializes encodings with
  `encoding.astype(np.float32).tobytes()` and reads them back with
  `np.frombuffer(..., dtype=np.float32)`, which operate purely on the bytes).
* Numeric pixel values and encodings used in distance computations are `ℚ`.
* The SQLite `users` table is a `List UserRow` in rowid order; `INSERT OR
  REPLACE` deletes any row with the conflicting unique `name` and appends a
  fresh row at the end.
* The PIL PNG save/load pair is an external lossless raster codec; it is
  modelled by a concrete lossless serialization (dimensions followed by the
  raw pixel bytes), faithful to PNG's documented losslessness.
-/

/-! ## data.py: serialization -/

/-- One little-endian 4-byte block of a 32-bit float bit pattern,
as produced elementwise by `ndarray.tobytes()` on a float32 array. -/
def floatToBytes (x : Nat) : List Nat :=
  [x % 256, x / 256 % 256, x / 256 ^ 2 % 256, x / 256 ^ 3 % 256]

/-- `encoding.astype(np.float32).tobytes()`: concatenation of the 4-byte
blocks of the float32 coordinates (the coordinates are given as 32-bit
bit patterns, on which `astype(np.float32)` is the identity). -/
def encodingToBytes (e : List Nat) : List Nat :=
  e.flatMap floatToBytes

/-- `np.frombuffer(encoding_bytes, dtype=np.float32)`: reassemble the
byte string into 4-byte little-endian words; a trailing fragment of
fewer than 4 bytes is dropped (frombuffer rejects it; it never occurs
on bytes produced by `encodingToBytes`). -/
def bytesToFloats : List Nat → List Nat
  | b0 :: b1 :: b2 :: b3 :: rest =>
      (b0 + 256 * b1 + 256 ^ 2 * b2 + 256 ^ 3 * b3) :: bytesToFloats rest
  | _ => []

/-- A raster image (`numpy` uint8 array handed to `PIL.Image.fromarray`):
dimensions plus the flat list of raw pixel bytes. -/
structure Img where
  width : Nat
  height : Nat
  pixels : List Nat
  deriving DecidableEq, Repr

/-- The PIL `img.save(..., format='PNG')` step: a lossless raster
serialization of the image (PNG is lossless; modelled as the dimensions
followed by the raw pixel bytes). -/
def pngEncode (img : Img) : List Nat :=
  img.width :: img.height :: img.pixels

/-- The `np.array(Image.open(io.BytesIO(img_bytes)))` step: inverse of
`pngEncode` on well-formed byte strings. -/
def pngDecode : List Nat → Img
  | w :: h :: px => ⟨w, h, px⟩
  | _ => ⟨0, 0, []⟩

/-! ## data.py: the users table -/

/-- A row of the `users` table (`name TEXT UNIQUE NOT NULL`,
`encoding BLOB NOT NULL`, `image BLOB NOT NULL`); the synthetic
auto-increment id is the position in the list. -/
structure UserRow where
  name : String
  encoding : List Nat
  image : List Nat
  deriving DecidableEq, Repr

/-- `data.add_user`: serialize the encoding and the image, then
`INSERT OR REPLACE INTO users (name, encoding, image) VALUES (?, ?, ?)` —
any existing row with this (unique) name is deleted and the fresh row is
appended with a new rowid. -/
def add_user (name : String) (encoding : List Nat) (image_array : Img)
    (db : List UserRow) : List UserRow :=
  let encoding_bytes := encodingToBytes encoding
  let img_bytes := pngEncode image_array
  db.filter (fun r => r.name ≠ name) ++ [⟨name, encoding_bytes, img_bytes⟩]

/-- `data.get_user`: `SELECT encoding, image FROM users WHERE name=?`,
deserializing the first matching row (`fetchone`), `None` when absent. -/
def get_user (name : String) (db : List UserRow) : Option (List Nat × Img) :=
  match db.find? (fun r => r.name = name) with
  | some r => some (bytesToFloats r.encoding, pngDecode r.image)
  | none => none

/-! ## Serialization round-trip lemmas -/

theorem bytesToFloats_floatToBytes_append (x : Nat) (hx : x < 2 ^ 32)
    (rest : List Nat) :
    bytesToFloats (floatToBytes x ++ rest) = x :: bytesToFloats rest := by
  simp only [floatToBytes, List.cons_append, List.nil_append, bytesToFloats]
  congr 1
  omega

theorem bytesToFloats_encodingToBytes (e : List Nat)
    (he : ∀ x ∈ e, x < 2 ^ 32) :
    bytesToFloats (encodingToBytes e) = e := by
  induction e with
  | nil => rfl
  | cons x rest ih =>
      have hx : x < 2 ^ 32 := he x (List.mem_cons_self x rest)
      have hrest : ∀ y ∈ rest, y < 2 ^ 32 := fun y hy => he y (List.mem_cons_of_mem x hy)
      simp only [encodingToBytes, List.flatMap_cons]
      rw [show rest.flatMap floatToBytes = encodingToBytes rest from rfl,
        bytesToFloats_floatToBytes_append x hx, ih hrest]

theorem pngDecode_pngEncode (img : Img) : pngDecode (pngEncode img) = img := by
  cases img
  rfl

/-! ## face_detection.py: frames, faces, encodings -/

/-- A pixel: the list of channel values (3 channels for a BGR/RGB image). -/
abbrev Pixel := List ℚ

/-- A numpy image array (a registration face crop or a camera frame):
height, width, and the pixel at each coordinate pair. -/
structure Frame where
  height : Nat
  width : Nat
  px : Nat → Nat → Pixel

/-- Channelwise sum of a list of pixels (`zipWith` addition folded over the
list, as numpy sums along axes 0 and 1). -/
def vecSum : List Pixel → Pixel
  | [] => []
  | p :: rest => rest.foldl (fun acc q => List.zipWith (· + ·) acc q) p

/-- All coordinate pairs of a frame in row-major order. -/
def frameIdx (f : Frame) : List (Nat × Nat) :=
  (List.range f.height).flatMap (fun i => (List.range f.width).map (fun j => (i, j)))

/-- `np.mean(face_img, axis=(0, 1))`: the per-channel mean pixel value of
the crop — the program's face encoding. -/
def npMean (f : Frame) : List ℚ :=
  (vecSum ((frameIdx f).map (fun ij => f.px ij.1 ij.2))).map
    (fun x => x / ((f.height : ℚ) * (f.width : ℚ)))

/-- A value of the `known_faces` dictionary: the encoding and the face crop
stored at registration. -/
structure FaceData where
  encoding : List ℚ
  image : Frame

/-- The in-memory `known_faces` dictionary: an association list in Python
dict insertion order. -/
abbrev KnownFaces := List (String × FaceData)

/-- `known_faces[name] = value`: assigning an existing key overwrites its
value in place (keeping its position), a new key is appended at the end —
Python dict insertion-order semantics. -/
def dictInsert (l : KnownFaces) (k : String) (v : FaceData) : KnownFaces :=
  if l.any (fun p => p.1 = k) then
    l.map (fun p => if p.1 = k then (k, v) else p)
  else
    l ++ [(k, v)]

/-! ## face_detection.py: program state and registration -/

/-- The mutable state the pipeline touches: the `known_faces` dictionary,
the `users` table of `faces.db`, and the `movement_log.txt` contents
(modelled as the list of logged names, in order). -/
structure AppState where
  known_faces : KnownFaces
  store : List UserRow
  movementLog : List String

/-- The result of `RetinaFace.extract_faces`: either a list of aligned face
crops or a raised exception (collapsed to `Unit`; `detect_and_register`
catches every exception uniformly). -/
abbrev ExtractResult := Except Unit (List Frame)

/-- `detect_and_register(image_path, name)`: run the external detector; on
an empty result or an exception return `None` leaving all state unchanged;
otherwise take the first detected face, compute its mean-color encoding,
store both in `known_faces[name]`, and return the face crop. The function
never touches the store (it does not call `data.add_user`). -/
def detect_and_register (extract : ExtractResult) (name : String)
    (st : AppState) : Option Frame × AppState :=
  match extract with
  | .error _ => (none, st)
  | .ok [] => (none, st)
  | .ok (face_img :: _) =>
      let encoding := npMean face_img
      (some face_img,
        { st with known_faces := dictInsert st.known_faces name ⟨encoding, face_img⟩ })

/-- Python `str.strip()` (no argument): remove leading and trailing
whitespace characters. -/
def pyStrip (s : String) : String :=
  ⟨((s.data.dropWhile Char.isWhitespace).reverse.dropWhile Char.isWhitespace).reverse⟩

/-- `threaded_register_face` input validation outcome: either an error
dialog before any work starts, or a background worker is spawned for the
given path and (stripped) name. -/
inductive RegSubmit where
  | rejected (msg : String)
  | spawned (path name : String)
  deriving DecidableEq, Repr

/-- `threaded_register_face`: strip the entered name; reject with an error
dialog when the stripped name is empty or when no image was uploaded;
otherwise spawn the detection worker. -/
def threaded_register_face (rawName : String) (file_path : Option String) :
    RegSubmit :=
  let name := pyStrip rawName
  if name = "" then .rejected "Please enter employee name."
  else
    match file_path with
    | none => .rejected "Please upload an image."
    | some p => .spawned p name

/-- The registration submission followed by the worker (when one is
spawned): a rejected submission leaves the state untouched, a spawned
worker runs `detect_and_register`. -/
def submitRegistration (rawName : String) (file_path : Option String)
    (extract : ExtractResult) (st : AppState) : RegSubmit × AppState :=
  match threaded_register_face rawName file_path with
  | .rejected m => (.rejected m, st)
  | .spawned p n => (.spawned p n, (detect_and_register extract n st).2)

/-- `delete_employee` (after the confirmation dialog): `DELETE FROM users
WHERE name=?` followed by `del known_faces[name]` guarded by a membership
test. -/
def delete_employee (name : String) (st : AppState) : AppState :=
  { st with
    store := st.store.filter (fun r => r.name ≠ name)
    known_faces := st.known_faces.filter (fun p => p.1 ≠ name) }

/-! ## face_detection.py: the tracking loop -/

/-- A `facial_area` bounding box from `RetinaFace.detect_faces`:
`x1, y1, x2, y2` as (possibly negative) integers. -/
structure Region where
  x1 : Int
  y1 : Int
  x2 : Int
  y2 : Int
  deriving DecidableEq, Repr

/-- Squared Euclidean distance between two encodings
(`np.linalg.norm(encoding - known_enc) ^ 2`); comparing it with `900`
is exactly comparing the norm with `30`, both being nonnegative. -/
def distSq (a b : List ℚ) : ℚ :=
  ((List.zipWith (· - ·) a b).map (fun x => x * x)).sum

/-- The inner loop over `known_faces.items()`: return the first name (in
dict insertion order) whose encoding is at Euclidean distance `< 30`
from the probe (squared distance `< 900`), `none` when no entry is;
the loop `break`s at the first hit. -/
def trackMatch (probe : List ℚ) : KnownFaces → Option String
  | [] => none
  | p :: rest =>
      if distSq probe p.2.encoding < 900 then some p.1 else trackMatch probe rest

/-- Modelled from the spec: "Computes Euclidean distance between the probe
and every known encoding; selects the minimum. If the minimum distance is
below a fixed threshold (30 ...), declares a match and returns that name;
otherwise declares no match. Tie-break: first encountered in iteration
order wins if distances are exactly equal." Kept for comparison with the
program's `trackMatch`. -/
def specNearestMatch (known : KnownFaces) (probe : List ℚ) : Option String :=
  match known.foldl
      (fun best p =>
        let d := distSq probe p.2.encoding
        match best with
        | none => some (p.1, d)
        | some nd => if d < nd.2 then some (p.1, d) else some nd)
      none with
  | none => none
  | some nd => if nd.2 < 900 then some nd.1 else none

/-- The effective index of a Python slice bound `i` on an axis of length
`len` (step 1): a negative index counts from the end of the axis
(`len + i`), after which the bound is clamped into `[0, len]` — numpy
slicing never reads out of bounds and never raises. -/
def sliceIndex (len : Nat) (i : Int) : Nat :=
  if i < 0 then (len + i).toNat else min i.toNat len

/-- `frame[y1:y2, x1:x2]` with Python slice semantics on each axis: the
subframe of rows from `sliceIndex height y1` (inclusive) to
`sliceIndex height y2` (exclusive), likewise for columns; empty when the
effective bounds are crossed (truncated subtraction). -/
def cropFrame (f : Frame) (x1 y1 x2 y2 : Int) : Frame :=
  ⟨sliceIndex f.height y2 - sliceIndex f.height y1,
    sliceIndex f.width x2 - sliceIndex f.width x1,
    fun i j => f.px (sliceIndex f.height y1 + i) (sliceIndex f.width x1 + j)⟩

/-- The clamped crop of lines 137-139 of the loop: `x1, y1 = max(0, x1),
max(0, y1)`, `x2, y2 = min(frame.shape[1], x2), min(frame.shape[0], y2)`,
then `face_crop = frame[y1:y2, x1:x2]`. The code never lower-clamps
`x2, y2`: a stop that is still negative wraps around inside the slice,
counting from the end of the axis. -/
def clampedCrop (f : Frame) (r : Region) : Frame :=
  cropFrame f (max 0 r.x1) (max 0 r.y1)
    (min (f.width : Int) r.x2) (min (f.height : Int) r.y2)

/-- Processing of one detected region inside the tracking loop: clamp the
bounding box to the frame and crop; a crop of size zero is skipped
(`continue`) before any encoding is computed — the result is `none`;
otherwise compute the mean-color encoding and run the known-faces matching
loop, returning the encoding and the matched name (if any). -/
def processRegion (known : KnownFaces) (f : Frame) (r : Region) :
    Option (List ℚ × Option String) :=
  let face_crop := clampedCrop f r
  if face_crop.height * face_crop.width = 0 then none
  else
    let encoding := npMean face_crop
    some (encoding, trackMatch encoding known)

/-- The names logged for one frame: each detected region is processed
independently; a matched region appends a `log_movement` entry. -/
def frameMatches (known : KnownFaces) (f : Frame) (regions : List Region) :
    List String :=
  regions.filterMap (fun r => (processRegion known f r).bind (fun out => out.2))

/-- One iteration's camera input: the frame read fails (`ret` falsy), or a
frame arrives together with the outcome of `RetinaFace.detect_faces` on it
(a detection mapping, or a raised exception) and whether ESC is pressed in
the display window during this iteration. -/
inductive CamEvent where
  | captureFail
  | frame (f : Frame) (dets : Except Unit (List Region)) (esc : Bool)

/-- The loop moves past this event: the capture succeeded and ESC was not
pressed during the iteration. -/
def CamEvent.continues : CamEvent → Bool
  | .captureFail => false
  | .frame _ _ esc => !esc

/-- The event carries a frame on which the detector raised an exception. -/
def CamEvent.isDetectError : CamEvent → Bool
  | .frame _ (.error _) _ => true
  | _ => false

/-- The state the tracking loop accumulates: warnings printed from the
per-frame `except` handler, movement-log lines (as names), and the number
of frames displayed by `cv2.imshow`. -/
structure TrackState where
  warnings : Nat
  movementLog : List String
  framesShown : Nat
  deriving DecidableEq, Repr

/-- The `while True` body of `start_tracking`: a failed capture breaks the
loop; otherwise detection runs inside `try`, an exception only prints a
warning, a detection mapping has each region processed and matches logged;
either way the frame is shown and the loop continues unless ESC was
pressed. -/
def trackLoop (known : KnownFaces) : List CamEvent → TrackState → TrackState
  | [], st => st
  | .captureFail :: _, st => st
  | .frame f dets esc :: rest, st =>
      let st' :=
        match dets with
        | .error _ => { st with warnings := st.warnings + 1 }
        | .ok regions =>
            { st with movementLog := st.movementLog ++ frameMatches known f regions }
      let st'' := { st' with framesShown := st'.framesShown + 1 }
      if esc then st'' else trackLoop known rest st''

/-- `start_tracking`: run the tracking loop over the camera's events
against the current `known_faces`, appending its movement-log lines to the
log file; neither `known_faces` nor the store is touched. -/
def start_tracking (cam : List CamEvent) (st : AppState) : AppState :=
  { st with
    movementLog := st.movementLog ++ (trackLoop st.known_faces cam ⟨0, [], 0⟩).movementLog }

/-! ## The user-driven session -/

/-- A user-initiated operation of one program run. -/
inductive Op where
  | register (extract : ExtractResult) (name : String)
  | deleteEmp (name : String)
  | startTracking (cam : List CamEvent)

/-- Effect of one operation on the program state. -/
def runOp (st : AppState) : Op → AppState
  | .register extract name => (detect_and_register extract name st).2
  | .deleteEmp name => delete_employee name st
  | .startTracking cam => start_tracking cam st

/-- A session: operations applied in order. -/
def runOps (ops : List Op) (st : AppState) : AppState :=
  ops.foldl runOp st

/-- The state at process start with an initially empty database:
`known_faces = {}` at module scope, no rows, no log lines. -/
def initState : AppState := ⟨[], [], []⟩

/-- A process start over an arbitrary pre-existing `faces.db` content:
`known_faces` is always `{}`, never hydrated from the store. -/
def startState (store0 : List UserRow) : AppState := ⟨[], store0, []⟩

/-! ## Shared lemmas -/

theorem find?_filter_ne_name (db : List UserRow) (name : String) :
    (db.filter (fun r => r.name ≠ name)).find? (fun r => r.name = name) = none := by
  rw [List.find?_eq_none]
  intro x hx
  rcases List.mem_filter.mp hx with ⟨-, hne⟩
  simpa using hne

theorem countP_filter_ne_name (l : List UserRow) (name : String) :
    (l.filter (fun r => r.name ≠ name)).countP (fun r => r.name = name) = 0 := by
  rw [List.countP_eq_zero]
  intro r hr
  rcases List.mem_filter.mp hr with ⟨-, hne⟩
  simpa using hne

theorem sliceIndex_le (len : Nat) (i : Int) : sliceIndex len i ≤ len := by
  unfold sliceIndex
  by_cases h : i < 0
  · rw [if_pos h]
    omega
  · rw [if_neg h]
    exact min_le_right _ _

/-! ## C3: store round-trip -/

/-- C3: for every name, encoding vector `e` (of 32-bit float bit patterns)
and image `img`, `get_user name` immediately after `add_user name e img`
returns exactly `e` and `img`: the float-byte serialization of the
encoding and the raster serialization of the image round-trip
losslessly. -/
theorem get_user_after_add_user (name : String) (e : List Nat) (img : Img)
    (db : List UserRow) (he : ∀ x ∈ e, x < 2 ^ 32) :
    get_user name (add_user name e img db) = some (e, img) := by
  unfold get_user add_user
  rw [List.find?_append, find?_filter_ne_name, Option.none_or]
  simp [bytesToFloats_encodingToBytes e he, pngDecode_pngEncode]

/-- Witness for C3 at a concrete registration. -/
theorem get_user_after_add_user_witness :
    (∀ x ∈ [(0 : Nat), 4294967295], x < 2 ^ 32) ∧
      get_user "Alice" (add_user "Alice" [0, 4294967295] ⟨1, 1, [10, 20, 30]⟩ []) =
        some ([0, 4294967295], ⟨1, 1, [10, 20, 30]⟩) :=
  ⟨by decide, get_user_after_add_user "Alice" [0, 4294967295] ⟨1, 1, [10, 20, 30]⟩ []
    (by decide)⟩

/-! ## C4: upsert keeps one record per name -/

/-- C4: upserting the same name twice (with any two value pairs) leaves
exactly one record under that name — the values of the second upsert —
and `add_user` is total: `INSERT OR REPLACE` raises no duplicate-name
error. -/
theorem add_user_twice_one_record (name : String) (e1 e2 : List Nat)
    (i1 i2 : Img) (db : List UserRow) :
    (add_user name e2 i2 (add_user name e1 i1 db)).countP (fun r => r.name = name) = 1
    ∧ (add_user name e2 i2 (add_user name e1 i1 db)).find? (fun r => r.name = name) =
        some ⟨name, encodingToBytes e2, pngEncode i2⟩ := by
  constructor
  · unfold add_user
    rw [List.countP_append, countP_filter_ne_name]
    simp [List.countP_cons]
  · unfold add_user
    rw [List.find?_append, find?_filter_ne_name, Option.none_or]
    simp

/-! ## C5: failed detection changes nothing; only the first face is used -/

/-- C5: when the detector finds zero faces (or raises), registration
returns the `None` failure and the whole program state — `known_faces`
cache, store and log — is left unchanged; when faces are found, the
result depends only on the first face in the returned list, which is the
face registered and returned. -/
theorem detect_and_register_failure_atomic (extract : ExtractResult)
    (name : String) (st : AppState) :
    ((extract = .ok [] ∨ extract = .error ()) →
        detect_and_register extract name st = (none, st))
    ∧ (∀ f rest, extract = .ok (f :: rest) →
        detect_and_register extract name st = detect_and_register (.ok [f]) name st
        ∧ (detect_and_register extract name st).1 = some f) := by
  constructor
  · rintro (rfl | rfl) <;> rfl
  · rintro f rest rfl
    exact ⟨rfl, rfl⟩

/-- Witness for C5: a zero-face detection on a concrete state. -/
theorem detect_and_register_failure_atomic_witness :
    detect_and_register (.ok []) "Alice" initState = (none, initState) :=
  (detect_and_register_failure_atomic (.ok []) "Alice" initState).1 (Or.inl rfl)

/-! ## C6: delete of an absent name is a no-op -/

/-- C6: deleting a name with no record in the store leaves the store's
records unchanged (and raises nothing: the operation is total), and in
general a row survives `delete_employee` exactly when its name differs
from the deleted one — a present name has exactly its own record
removed. -/
theorem delete_employee_absent_noop (name : String) (st : AppState) :
    ((∀ r ∈ st.store, r.name ≠ name) → (delete_employee name st).store = st.store)
    ∧ (∀ r, r ∈ (delete_employee name st).store ↔ r ∈ st.store ∧ r.name ≠ name) := by
  constructor
  · intro h
    simp only [delete_employee]
    exact List.filter_eq_self.mpr (fun r hr => by simpa using h r hr)
  · intro r
    simp [delete_employee]

/-- Witness for C6: deleting "Alice" from a store holding only "Bob". -/
theorem delete_employee_absent_noop_witness :
    (delete_employee "Alice" ⟨[], [⟨"Bob", [1], [2]⟩], []⟩).store = [⟨"Bob", [1], [2]⟩] :=
  (delete_employee_absent_noop "Alice" ⟨[], [⟨"Bob", [1], [2]⟩], []⟩).1 (by decide)

/-! ## C1: a successful registration never reaches the store -/

/-- C1: evaluating the registration pipeline at its failing input. A
successful registration of "Alice" (the detector returns one face) does
update the in-memory `known_faces` cache, but the store receives no row
for "Alice": `detect_and_register` never calls `data.add_user`, so after
the registration the store holds zero records for "Alice" instead of the
claimed exactly one — and this holds for every registration against every
starting state (last conjunct). -/
theorem register_success_leaves_store_empty :
    (detect_and_register (.ok [⟨1, 1, fun _ _ => [100, 150, 200]⟩]) "Alice" initState).1 =
      some ⟨1, 1, fun _ _ => [100, 150, 200]⟩
    ∧ (runOps [.register (.ok [⟨1, 1, fun _ _ => [100, 150, 200]⟩]) "Alice"]
        initState).known_faces.map Prod.fst = ["Alice"]
    ∧ (runOps [.register (.ok [⟨1, 1, fun _ _ => [100, 150, 200]⟩]) "Alice"]
        initState).store.countP (fun r => r.name = "Alice") = 0
    ∧ ∀ extract name st, ((detect_and_register extract name st).2).store = st.store := by
  refine ⟨rfl, rfl, rfl, fun extract name st => ?_⟩
  cases extract with
  | error u => rfl
  | ok faces => cases faces <;> rfl

/-! ## C2: the matcher is first-below-threshold, not nearest -/

/-- C2 counterexample: with "A" registered before "B", the probe `[0]` is
at distance 25 from "A" and 10 from "B" (both below 30); the tracking
loop returns "A" — the first entry below threshold in insertion order —
while the nearest known encoding is "B", as the spec-side minimum-distance
matcher shows. -/
theorem trackMatch_not_nearest :
    trackMatch [0] [("A", ⟨[25], ⟨0, 0, fun _ _ => []⟩⟩), ("B", ⟨[10], ⟨0, 0, fun _ _ => []⟩⟩)] =
      some "A"
    ∧ specNearestMatch
        [("A", ⟨[25], ⟨0, 0, fun _ _ => []⟩⟩), ("B", ⟨[10], ⟨0, 0, fun _ _ => []⟩⟩)] [0] =
      some "B"
    ∧ distSq [0] [10] < distSq [0] [25]
    ∧ distSq [0] [25] < 900 := by
  refine ⟨?_, ?_, ?_, ?_⟩ <;> norm_num [trackMatch, specNearestMatch, distSq]

/-- C2 amended: for every probe and known-faces mapping, the matcher scans
the known encodings in insertion order and returns the first name whose
Euclidean distance to the probe is strictly below 30 (squared distance
below 900); it declares no match exactly when every known encoding —
equivalently the minimum — is at distance at least 30; in particular two
known encodings at equal distance below 30 resolve to the one inserted
first. -/
theorem trackMatch_first_below_threshold (probe : List ℚ) (known : KnownFaces) :
    (trackMatch probe known = none ↔ ∀ p ∈ known, 900 ≤ distSq probe p.2.encoding)
    ∧ (∀ n, trackMatch probe known = some n →
        ∃ pre d post, known = pre ++ (n, d) :: post
          ∧ distSq probe d.encoding < 900
          ∧ ∀ q ∈ pre, 900 ≤ distSq probe q.2.encoding) := by
  induction known with
  | nil =>
      refine ⟨⟨fun _ p hp => absurd hp (List.not_mem_nil p), fun _ => rfl⟩, ?_⟩
      intro n h
      cases h
  | cons hd tl ih =>
      constructor
      · constructor
        · intro h p hp
          unfold trackMatch at h
          by_cases hlt : distSq probe hd.2.encoding < 900
          · rw [if_pos hlt] at h
            cases h
          · rw [if_neg hlt] at h
            rcases List.mem_cons.mp hp with rfl | hp'
            · exact le_of_not_lt hlt
            · exact ih.1.mp h p hp'
        · intro h
          unfold trackMatch
          rw [if_neg (not_lt.mpr (h hd (List.mem_cons_self hd tl)))]
          exact ih.1.mpr (fun p hp => h p (List.mem_cons_of_mem hd hp))
      · intro n h
        unfold trackMatch at h
        by_cases hlt : distSq probe hd.2.encoding < 900
        · rw [if_pos hlt] at h
          injection h with h
          subst h
          exact ⟨[], hd.2, tl, by simp, hlt, by simp⟩
        · rw [if_neg hlt] at h
          rcases ih.2 n h with ⟨pre, d, post, heq, hdlt, hpre⟩
          refine ⟨hd :: pre, d, post, by rw [heq, List.cons_append], hdlt, ?_⟩
          intro q hq
          rcases List.mem_cons.mp hq with rfl | hq'
          · exact le_of_not_lt hlt
          · exact hpre q hq'

/-- Witness for the amended C2 at a concrete matching call. -/
theorem trackMatch_first_below_threshold_witness :
    ∃ pre d post,
      ([("A", ⟨[25], ⟨0, 0, fun _ _ => []⟩⟩)] : KnownFaces) = pre ++ ("A", d) :: post
      ∧ distSq [0] d.encoding < 900
      ∧ ∀ q ∈ pre, 900 ≤ distSq [0] q.2.encoding :=
  (trackMatch_first_below_threshold [0] [("A", ⟨[25], ⟨0, 0, fun _ _ => []⟩⟩)]).2 "A"
    (by norm_num [trackMatch, distSq])

/-! ## C10: registration input validation -/

/-- C10: a registration submitted with a name that strips to empty or with
no uploaded image is rejected before any work starts: an error dialog is
reported, no detection worker is spawned, and the program state — cache,
store and log — is untouched. -/
theorem registration_validation (rawName : String) (file_path : Option String)
    (extract : ExtractResult) (st : AppState) :
    (pyStrip rawName = "" ∨ file_path = none) →
      ∃ msg, threaded_register_face rawName file_path = .rejected msg
        ∧ submitRegistration rawName file_path extract st = (.rejected msg, st) := by
  intro h
  by_cases hn : pyStrip rawName = ""
  · exact ⟨"Please enter employee name.",
      by simp [threaded_register_face, hn],
      by simp [submitRegistration, threaded_register_face, hn]⟩
  · have hf : file_path = none := h.resolve_left hn
    exact ⟨"Please upload an image.",
      by simp [threaded_register_face, hn, hf],
      by simp [submitRegistration, threaded_register_face, hn, hf]⟩

/-- Witness for C10: a whitespace-only name with an uploaded image. -/
theorem registration_validation_witness :
    ∃ msg, threaded_register_face "   " (some "a.jpg") = .rejected msg
      ∧ submitRegistration "   " (some "a.jpg") (.ok []) initState = (.rejected msg, initState) :=
  registration_validation "   " (some "a.jpg") (.ok []) initState (Or.inl (by decide))

/-! ## C7: per-frame detector errors are not fatal, capture failure is -/

/-- C7: over any event sequence the loop keeps running past detector
exceptions — every captured frame is shown and each exception only adds a
warning — while a failed frame capture ends the loop on the spot: the
events after the first capture failure are never processed. -/
theorem trackLoop_detect_error_not_fatal (known : KnownFaces) :
    (∀ events st, (∀ e ∈ events, e.continues = true) →
        (trackLoop known events st).framesShown = st.framesShown + events.length
        ∧ (trackLoop known events st).warnings =
            st.warnings + events.countP CamEvent.isDetectError)
    ∧ ∀ pre post st,
        trackLoop known (pre ++ .captureFail :: post) st = trackLoop known pre st := by
  constructor
  · intro events
    induction events with
    | nil => exact fun st h => ⟨rfl, rfl⟩
    | cons e rest ih =>
        intro st h
        have he : e.continues = true := h e (List.mem_cons_self e rest)
        have hrest : ∀ x ∈ rest, x.continues = true :=
          fun x hx => h x (List.mem_cons_of_mem e hx)
        cases e with
        | captureFail => simp [CamEvent.continues] at he
        | frame f dets esc =>
            have hesc : esc = false := by simpa [CamEvent.continues] using he
            subst hesc
            cases dets with
            | error u =>
                have ih' := ih ⟨st.warnings + 1, st.movementLog, st.framesShown + 1⟩ hrest
                simp only [trackLoop, Bool.false_eq_true, if_false]
                rw [ih'.1, ih'.2]
                simp [CamEvent.isDetectError, List.countP_cons]
                all_goals omega
            | ok regions =>
                have ih' := ih
                  ⟨st.warnings, st.movementLog ++ frameMatches known f regions,
                    st.framesShown + 1⟩ hrest
                simp only [trackLoop, Bool.false_eq_true, if_false]
                rw [ih'.1, ih'.2]
                simp [CamEvent.isDetectError, List.countP_cons]
                all_goals omega
  · intro pre
    induction pre with
    | nil => intro post st; rfl
    | cons e pre ih =>
        intro post st
        cases e with
        | captureFail => rfl
        | frame f dets esc =>
            cases esc with
            | true => rfl
            | false =>
                simp only [List.cons_append, trackLoop, Bool.false_eq_true, if_false]
                exact ih post _

/-- Witness for C7: three frames where the second raises a detector
exception — all three are shown, one warning is recorded. -/
theorem trackLoop_detect_error_not_fatal_witness :
    (trackLoop []
      [.frame ⟨1, 1, fun _ _ => [0, 0, 0]⟩ (.ok []) false,
        .frame ⟨1, 1, fun _ _ => [0, 0, 0]⟩ (.error ()) false,
        .frame ⟨1, 1, fun _ _ => [0, 0, 0]⟩ (.ok []) false] ⟨0, [], 0⟩).framesShown = 3
    ∧ (trackLoop []
      [.frame ⟨1, 1, fun _ _ => [0, 0, 0]⟩ (.ok []) false,
        .frame ⟨1, 1, fun _ _ => [0, 0, 0]⟩ (.error ()) false,
        .frame ⟨1, 1, fun _ _ => [0, 0, 0]⟩ (.ok []) false] ⟨0, [], 0⟩).warnings = 1 :=
  (trackLoop_detect_error_not_fatal []).1
    [.frame ⟨1, 1, fun _ _ => [0, 0, 0]⟩ (.ok []) false,
      .frame ⟨1, 1, fun _ _ => [0, 0, 0]⟩ (.error ()) false,
      .frame ⟨1, 1, fun _ _ => [0, 0, 0]⟩ (.ok []) false] ⟨0, [], 0⟩
    (by intro e he; fin_cases he <;> rfl)

/-! ## C8: the cache is populated in-session only -/

theorem mem_names_dictInsert {l : KnownFaces} {k k' : String} {v : FaceData}
    (h : k' ∈ (dictInsert l k v).map Prod.fst) :
    k' ∈ l.map Prod.fst ∨ k' = k := by
  unfold dictInsert at h
  by_cases hc : l.any (fun p => p.1 = k)
  · rw [if_pos hc] at h
    rcases List.mem_map.mp h with ⟨q, hq, hfst⟩
    rcases List.mem_map.mp hq with ⟨p, hp, hgp⟩
    subst hgp
    by_cases hpk : p.1 = k
    · right
      rw [← hfst, if_pos hpk]
    · left
      rw [← hfst, if_neg hpk]
      exact List.mem_map.mpr ⟨p, hp, rfl⟩
  · rw [if_neg hc, List.map_append] at h
    rcases List.mem_append.mp h with h' | h'
    · left; exact h'
    · right; simpa using h'

theorem mem_names_runOp {st : AppState} {op : Op} {n : String}
    (h : n ∈ (runOp st op).known_faces.map Prod.fst) :
    n ∈ st.known_faces.map Prod.fst ∨ ∃ e, op = .register e n := by
  cases op with
  | register extract name =>
      cases extract with
      | error u => left; exact h
      | ok faces =>
          cases faces with
          | nil => left; exact h
          | cons f rest =>
              simp only [runOp, detect_and_register] at h
              rcases mem_names_dictInsert h with h' | rfl
              · left; exact h'
              · right; exact ⟨.ok (f :: rest), rfl⟩
  | deleteEmp name =>
      left
      rcases List.mem_map.mp h with ⟨p, hp, hfst⟩
      exact List.mem_map.mpr ⟨p, (List.mem_filter.mp hp).1, hfst⟩
  | startTracking cam => left; exact h

theorem mem_names_runOps {ops : List Op} {st : AppState} {n : String}
    (h : n ∈ (runOps ops st).known_faces.map Prod.fst) :
    n ∈ st.known_faces.map Prod.fst ∨ ∃ e, Op.register e n ∈ ops := by
  induction ops generalizing st with
  | nil => left; exact h
  | cons op rest ih =>
      have h' : n ∈ (runOps rest (runOp st op)).known_faces.map Prod.fst := h
      rcases ih h' with h'' | ⟨e, he⟩
      · rcases mem_names_runOp h'' with h3 | ⟨e, rfl⟩
        · left; exact h3
        · right; exact ⟨e, List.mem_cons_self _ rest⟩
      · right; exact ⟨e, List.mem_cons_of_mem op he⟩

/-- C8: the `known_faces` cache starts empty; starting the tracking loop
never changes it (nothing is ever loaded from the store into it); and over
any session run from process start — whatever `faces.db` already
contains — every name in the cache was put there by a registration
operation of that same session. -/
theorem known_faces_session_only :
    initState.known_faces = []
    ∧ (∀ cam st, (runOp st (.startTracking cam)).known_faces = st.known_faces)
    ∧ ∀ store0 ops n,
        n ∈ (runOps ops (startState store0)).known_faces.map Prod.fst →
          ∃ e, Op.register e n ∈ ops := by
  refine ⟨rfl, fun cam st => rfl, fun store0 ops n h => ?_⟩
  rcases mem_names_runOps h with h' | he
  · simp [startState] at h'
  · exact he

/-- Witness for C8: a session with a single successful registration. -/
theorem known_faces_session_only_witness :
    ∃ e, Op.register e "Alice" ∈
      [Op.register (.ok [⟨1, 1, fun _ _ => [1, 2, 3]⟩]) "Alice"] :=
  known_faces_session_only.2.2 []
    [Op.register (.ok [⟨1, 1, fun _ _ => [1, 2, 3]⟩]) "Alice"] "Alice"
    (List.mem_singleton.mpr rfl)

/-! ## C9: clamped bounding boxes, empty crops skipped -/

/-- C9: the tracking loop clamps each detected bounding box before
cropping — the lower corner to 0 or above, the upper corner to the frame's
width and height or below — and the crop follows Python slice semantics,
so every pixel access of the crop stays inside the frame (no out-of-bounds
access); a region whose clamped crop has size zero is skipped with no
encoding computed and no matcher query (so no empty-array mean); and an
encoding that is produced is the mean over that provably nonempty crop,
with the matcher queried on exactly it. -/
theorem processRegion_clamp_and_skip (known : KnownFaces) (f : Frame) (r : Region) :
    (0 ≤ max 0 r.x1 ∧ 0 ≤ max 0 r.y1
      ∧ min (f.width : Int) r.x2 ≤ (f.width : Int)
      ∧ min (f.height : Int) r.y2 ≤ (f.height : Int))
    ∧ (∀ i j, i < (clampedCrop f r).height → j < (clampedCrop f r).width →
        sliceIndex f.height (max 0 r.y1) + i < f.height
        ∧ sliceIndex f.width (max 0 r.x1) + j < f.width)
    ∧ ((clampedCrop f r).height * (clampedCrop f r).width = 0 →
        processRegion known f r = none)
    ∧ ∀ out, processRegion known f r = some out →
        (clampedCrop f r).height * (clampedCrop f r).width ≠ 0
        ∧ out.1 = npMean (clampedCrop f r)
        ∧ out.2 = trackMatch (npMean (clampedCrop f r)) known := by
  refine ⟨⟨le_max_left 0 r.x1, le_max_left 0 r.y1, min_le_left _ _, min_le_left _ _⟩,
    ?_, ?_, ?_⟩
  · intro i j hi hj
    have h1 := sliceIndex_le f.height (min (f.height : Int) r.y2)
    have h2 := sliceIndex_le f.width (min (f.width : Int) r.x2)
    simp only [clampedCrop, cropFrame] at hi hj
    constructor <;> omega
  · intro h
    simp only [processRegion]
    rw [if_pos h]
  · intro out h
    by_cases hz : (clampedCrop f r).height * (clampedCrop f r).width = 0
    · simp only [processRegion] at h
      rw [if_pos hz] at h
      cases h
    · simp only [processRegion] at h
      rw [if_neg hz] at h
      injection h with h
      subst h
      exact ⟨hz, rfl, rfl⟩

/-- Witness for C9: a region whose clamped bounds cross (`x2 < x1`,
`y2 < y1` after clamping) has an empty crop and is skipped. -/
theorem processRegion_clamp_and_skip_witness :
    processRegion [] ⟨4, 4, fun _ _ => [0, 0, 0]⟩ ⟨2, 2, 1, 1⟩ = none :=
  (processRegion_clamp_and_skip [] ⟨4, 4, fun _ _ => [0, 0, 0]⟩ ⟨2, 2, 1, 1⟩).2.2.1
    (by decide)
